import Mathlib

/-
Verification development for `soccer/gameplay2/play_registry.py`.

The module keeps a tree of plays: a root `Category` whose children are
`Category` objects (named, ordered children) and `Node` objects (a play
leaf holding a module name, a play class and an enabled flag).  We embed
the tree shallowly: Python object graphs become an inductive tree (the
non-owning `parent` back-references are dropped: no verified operation
reads them), Python `None` becomes `Option`, a raised exception becomes
`Except.error` carrying the kind of the exception, and a Python `str`
used by the renderer becomes a `List Char` so that slicing (`desc[:-1]`)
is `List.dropLast`.

Dynamic-typing details of the source that the embedding keeps:
  * `module not in category.children` compares a `str` against
    `Category`/`Node` objects with `==`; no class involved defines
    `__eq__`, so the comparison is always `False` and the membership
    test is always `True`.
  * `category.children()` calls the `list` held by the `children`
    property; calling a `list` raises `TypeError`, so the call never
    produces a value (return type `Except PyErr Empty`).
  * `del category[key]` needs `__delitem__`; `Category` only defines
    `__del__(self, name)` (a misnamed finalizer), so the statement
    raises `TypeError` for every receiver, and also never produces a
    value.
-/

namespace PlayRegistry

/-- A play class object; `uid` models Python object identity (two distinct
class objects differ in `uid` even when their names collide) and `name`
models the `__name__` attribute. -/
structure PlayClass where
  uid : Nat
  name : String
deriving DecidableEq, BEq

/-- The kinds of Python exception the embedded operations can raise. -/
inductive PyErr where
  | typeError (msg : String)
  | attributeError (msg : String)
  | keyError (msg : String)
  | assertionError (msg : String)
  | indexError (msg : String)
deriving DecidableEq

/-- A tree node: `category` models `PlayRegistry.Category` (its `_name` and
its ordered `_children` list) and `node` models `PlayRegistry.Node` (its
`_module_name`, `_play_class` and `_enabled` fields). -/
inductive PRNode where
  | category (name : String) (children : List PRNode)
  | node (moduleName : String) (play_class : PlayClass) (enabled : Bool)

/-- The `.name` attribute: a `Category` returns its `_name`; a `Node`
returns `play_class.__name__`. -/
def pyName : PRNode → String
  | .category n _ => n
  | .node _ pc _ => pc.name

/-- `Category.__getitem__`: scan `children` in order, return the first child
whose `name` equals the key, else return Python `None`. -/
def getitem : List PRNode → String → Option PRNode
  | [], _ => none
  | c :: cs, key => if pyName c == key then some c else getitem cs key

/-- `Category.has_child_with_name`: `self[name] != None`; an object compared
with `None` by `!=` is `True`, so this is exactly definedness of the
lookup. -/
def has_child_with_name (cs : List PRNode) (key : String) : Bool :=
  match getitem cs key with
  | some _ => true
  | none => false

/-- Python `module == child` where `module` is a `str` and `child` is a
`Category` or `Node` instance: `str.__eq__` answers `NotImplemented`, no
child class defines `__eq__`, so the interpreter falls back to identity,
which never holds between a string and a tree node. -/
def pyEqStrObj (_module : String) (_child : PRNode) : Bool := false

/-- Python `module in category.children`: list membership, element by
element via `==`. -/
def strInChildren (module : String) (cs : List PRNode) : Bool :=
  cs.any (fun c => pyEqStrObj module c)

/-- The walk of `PlayRegistry.insert` over `module_path[:-1]`.  At each
segment the source tests `module not in category.children` (always true,
see `pyEqStrObj`), appends a fresh empty `Category module`, then rebinds
`category = category[module]`, the FIRST child of that name — which may be
an older sibling, or even a `Node` whose class name matches, in which case
the next attribute access raises `AttributeError`.  At the end it appends
`Node(module_path[-1], play_class)`, whose `_enabled` starts `True`. -/
def insertAux (leafName : String) (pc : PlayClass) : List String → PRNode → Except PyErr PRNode
  | [], .category n cs =>
      Except.ok (.category n (cs ++ [.node leafName pc true]))
  | [], .node _ _ _ =>
      Except.error (.attributeError "Node object has no attribute appendChild")
  | _ :: _, .node _ _ _ =>
      Except.error (.attributeError "Node object has no attribute children")
  | module :: rest, .category n cs =>
      let cs1 := if strInChildren module cs then cs else cs ++ [.category module []]
      match cs1.findIdx? (fun c => pyName c == module) with
      | none => Except.error (.attributeError "NoneType object has no attribute children")
      | some i =>
        match insertAux leafName pc rest (cs1.getD i (.category "" [])) with
        | Except.error e => Except.error e
        | Except.ok c2 => Except.ok (.category n (cs1.set i c2))

/-- `PlayRegistry.insert(module_path, play_class)`; an empty path raises
`IndexError` at `module_path[-1]` before any mutation. -/
def insert (t : PRNode) (module_path : List String) (pc : PlayClass) : Except PyErr PRNode :=
  match module_path with
  | [] => Except.error (.indexError "list index out of range")
  | _ :: _ => insertAux (module_path.getLastD "") pc module_path.dropLast t

/-- `catStack[-1][module]` inside `delete`: subscripting a `Category` is
`__getitem__` (first child of that name, or `None`); subscripting a `Node`
or `None` raises `TypeError`. -/
def subscriptOpt : Option PRNode → String → Except PyErr (Option PRNode)
  | some (.category _ cs), module => Except.ok (getitem cs module)
  | some (.node _ _ _), _ => Except.error (.typeError "Node object is not subscriptable")
  | none, _ => Except.error (.typeError "NoneType object is not subscriptable")

/-- `del obj[key]` inside `delete`: the statement dispatches to
`__delitem__`, which no receiver has (`Category` only defines a two-argument
`__del__`, which the statement never calls), so it raises `TypeError` for
every receiver and never produces a value. -/
def delItem : Option PRNode → String → Except PyErr Empty
  | some (.category _ _), _ =>
      Except.error (.typeError "Category object does not support item deletion")
  | some (.node _ _ _), _ =>
      Except.error (.typeError "Node object does not support item deletion")
  | none, _ =>
      Except.error (.typeError "NoneType object does not support item deletion")

/-- The `except KeyError: raise KeyError(...)` wrapper around the body of
`delete`: a `KeyError` is replaced, every other outcome passes through. -/
def wrapKeyError : Except PyErr PRNode → Except PyErr PRNode
  | Except.error (PyErr.keyError _) => Except.error (.keyError "Unable to find the specified play")
  | r => r

/-- `PlayRegistry.delete(module_path, play_class)` with the deletion key
`play_class.__name__` passed as `keyName`.  The walk pushes
`catStack[-1][module]` for each leading segment (a missing segment pushes
`None`), then executes `del catStack[-1][play_class.__name__]`; the pruning
loop after it is dead code because the `del` statement always raises. -/
def delete (t : PRNode) (module_path : List String) (keyName : String) : Except PyErr PRNode :=
  wrapKeyError
    ((module_path.dropLast.foldlM subscriptOpt (some t)).bind
      (fun last => (delItem last keyName).bind (fun e => e.elim)))

/-- The expression `category.children()` inside `_recursive_iter`: the
`children` property yields the `list` object, and calling a `list` raises
`TypeError: 'list' object is not callable`, so the call never returns. -/
def callList (_cs : List PRNode) : Except PyErr Empty :=
  Except.error (.typeError "list object is not callable")

/-- The generator `_recursive_iter(category)` of `PlayRegistry.__iter__`,
materialised: its first executed expression is `category.children()`, which
raises before anything can be yielded (on a `Node` the attribute lookup
itself would raise `AttributeError`; the registry only ever starts it on
the root `Category`). -/
def recursiveIter : PRNode → Except PyErr (List PRNode)
  | .category _ cs => (callList cs).bind (fun e => e.elim)
  | .node _ _ _ => Except.error (.attributeError "Node object has no attribute children")

/-- Iterating the registry (`for node in self`): run the generator on the
root to exhaustion. -/
def iterAll (t : PRNode) : Except PyErr (List PRNode) := recursiveIter t

/-- `node.enabled` as read by the comprehension in `get_enabled_plays`;
only `Node` elements can ever be produced by the iteration. -/
def nodeEnabled : PRNode → Bool
  | .node _ _ e => e
  | .category _ _ => false

/-- `node.play_class`; only `Node` elements can ever be produced by the
iteration. -/
def nodePlayClass : PRNode → PlayClass
  | .node _ pc _ => pc
  | .category _ _ => ⟨0, ""⟩

/-- `PlayRegistry.get_enabled_plays`:
`[node.play_class for node in self if node.enabled]`. -/
def get_enabled_plays (t : PRNode) : Except PyErr (List PlayClass) :=
  (iterAll t).map (fun ns => (ns.filter nodeEnabled).map nodePlayClass)

/-- `PlayRegistry.__contains__`: iterate the registry and compare each
node's `play_class` with the argument by identity. -/
def contains (t : PRNode) (pc : PlayClass) : Except PyErr Bool :=
  (iterAll t).map (fun ns => ns.any (fun n => nodePlayClass n == pc))

/-- A Python string of the renderer, embedded as its character list so that
the slice `desc[:-1]` is `List.dropLast`. -/
abbrev PyStr := List Char

/-- `"    " * indent`. -/
def pyIndent : Nat → PyStr
  | 0 => []
  | n + 1 => "    ".data ++ pyIndent n

/-- `Node.__str__`: `play_class.__name__ + " " + ("[ENABLED]" if enabled
else "[DISABLED]")`. -/
def nodeStr (pc : PlayClass) (e : Bool) : PyStr :=
  pc.name.data ++ " ".data ++ (if e then "[ENABLED]".data else "[DISABLED]".data)

mutual

/-- The accumulation loop of `_cat_str(category, indent)` inside
`PlayRegistry.__str__`: every child contributes its chunk followed by one
newline. -/
def childrenStr : List PRNode → Nat → PyStr
  | [], _ => []
  | c :: cs, ind => childStr c ind ++ ['\n'] ++ childrenStr cs ind

/-- One child's chunk in `_cat_str`: a `Node` contributes its indentation
and its string form; a `Category` contributes its indented name, a colon, a
newline and its own rendering at `indent + 1` (already stripped of its
trailing newline by the recursive `desc[:-1]`). -/
def childStr : PRNode → Nat → PyStr
  | .node _ pc e, ind => pyIndent ind ++ nodeStr pc e
  | .category nm sub, ind =>
      pyIndent ind ++ nm.data ++ [':'] ++ ['\n'] ++ (childrenStr sub (ind + 1)).dropLast

end

/-- `_cat_str(category, indent)`: the loop over the children followed by
`desc[:-1]`. -/
def catStr (cs : List PRNode) (ind : Nat) : PyStr :=
  (childrenStr cs ind).dropLast

/-- `PlayRegistry.__str__`: the fixed header followed by the rendering of
the root category at depth 0. -/
def strDump : PRNode → PyStr
  | .category _ cs => "PlayRegistry:\n-------------\n".data ++ catStr cs 0
  | .node _ pc e => nodeStr pc e

mutual

/-- The leaves of a subtree in depth-first, child-order traversal.  This is
what a correct `__iter__` would yield; the embedding uses it to state which
`Node` objects a tree holds. -/
def leavesList : PRNode → List PRNode
  | .node m pc e => [.node m pc e]
  | .category _ cs => leavesOfChildren cs

/-- The leaves of a child list, left to right. -/
def leavesOfChildren : List PRNode → List PRNode
  | [] => []
  | c :: cs => leavesList c ++ leavesOfChildren cs

end

/-- The names of the direct children of a node. -/
def childNames : PRNode → List String
  | .category _ cs => cs.map pyName
  | .node _ _ _ => []

/-- A Qt model index, embedded as its validity flag plus the row path that
the widget built the index from (the chain of `index(row, 0, parent)`
calls); `internalPointer` is the node that path reaches in the tree. -/
structure ModelIndex where
  valid : Bool
  path : List Nat
deriving DecidableEq

/-- The Qt item-data roles `setData` distinguishes. -/
inductive Role where
  | display
  | checkState
  | edit
deriving DecidableEq

/-- `index.internalPointer()`: follow the recorded row path from the given
root.  A well-formed index of the widget always resolves. -/
def getNode : PRNode → List Nat → Option PRNode
  | t, [] => some t
  | .category _ cs, i :: rest =>
      match cs[i]? with
      | some c => getNode c rest
      | none => none
  | .node _ _ _, _ :: _ => none

/-- `playNode.enabled = not playNode.enabled` performed on the node the row
path reaches, written back into the tree (the source mutates the shared
node object in place). -/
def toggleAt : PRNode → List Nat → PRNode
  | .node m pc e, [] => .node m pc (!e)
  | .category n cs, [] => .category n cs
  | .category n cs, i :: rest =>
      match cs[i]? with
      | some c => .category n (cs.set i (toggleAt c rest))
      | none => .category n cs
  | .node m pc e, _ :: _ => .node m pc e

/-- `PlayRegistry.setData(index, value, role)`: only the check-state role on
a valid index does anything; a `Category` there hits the
`AssertionError` guard before any state change; a `Node` has its `enabled`
flag flipped, `dataChanged.emit(index, index)` fires (returned as the list
of emitted ranges) and the call returns `True`.  Every other case returns
`False`, emits nothing and changes nothing.  An index whose recorded path
does not resolve never comes from the widget; the embedding reports it as
a `TypeError` on the dangling pointer. -/
def setData (t : PRNode) (ix : ModelIndex) (role : Role) :
    Except PyErr (Bool × PRNode × List (ModelIndex × ModelIndex)) :=
  if role = Role.checkState then
    if ix.valid then
      match getNode t ix.path with
      | some (.node _ _ _) => Except.ok (true, toggleAt t ix.path, [(ix, ix)])
      | some (.category _ _) =>
          Except.error (.assertionError "Only Play Nodes should be checkable...")
      | none => Except.error (.typeError "dangling internal pointer")
    else Except.ok (false, t, [])
  else Except.ok (false, t, [])

/-- The play classes and trees of the worked scenarios of the spec. -/
def pcRun : PlayClass := ⟨1, "RunAround"⟩

def pcPass : PlayClass := ⟨2, "PassDrill"⟩

def pcKick : PlayClass := ⟨3, "Kick"⟩

/-- A freshly constructed registry: the root category with the empty name. -/
def emptyReg : PRNode := .category "" []

/-- The tree after `insert(["demo", "run_around", "RunAround"], pcRun)`. -/
def tDemo1 : PRNode :=
  .category "" [.category "demo" [.category "run_around" [.node "RunAround" pcRun true]]]

/-- The tree after then inserting `["demo", "passing", "PassDrill"]`: the
payload lands under the first `demo`, and a second, empty category also
named `demo` has been appended next to it. -/
def tDemo2 : PRNode :=
  .category ""
    [.category "demo"
      [.category "run_around" [.node "RunAround" pcRun true],
       .category "passing" [.node "PassDrill" pcPass true]],
     .category "demo" []]

/-- The tree after `insert(["solo", "Kick"], pcKick)` on a fresh registry. -/
def tSolo : PRNode := .category "" [.category "solo" [.node "Kick" pcKick true]]

/-- Newline-separated join of a list of chunks, used to state the shape of
the renderer's output. -/
def joinLines : List PyStr → PyStr
  | [] => []
  | [b] => b
  | b :: b2 :: bs => b ++ ['\n'] ++ joinLines (b2 :: bs)

end PlayRegistry

open PlayRegistry

/-- C1 evidence: running the two inserts of the shared-prefix scenario.  The
payloads do land under the first category named `demo`, but the membership
test `module not in category.children` compares the string against child
objects and never succeeds, so the second insert appends another, empty
category also named `demo`: the root ends with two sibling categories of
the same name. -/
theorem C1_insert_duplicates_demo :
    PlayRegistry.insert emptyReg ["demo", "run_around", "RunAround"] pcRun = Except.ok tDemo1 ∧
    PlayRegistry.insert tDemo1 ["demo", "passing", "PassDrill"] pcPass = Except.ok tDemo2 ∧
    childNames tDemo2 = ["demo", "demo"] ∧
    (childNames tDemo2).count "demo" = 2 :=
  ⟨rfl, rfl, rfl, by decide⟩

/-- C2 evidence: iterating any registry raises `TypeError` at the first
step, because the generator calls `category.children()` on the list held by
the `children` property; no leaf is ever yielded. -/
theorem C2_iteration_type_error (nm : String) (cs : List PRNode) :
    iterAll (PRNode.category nm cs) =
      Except.error (PyErr.typeError "list object is not callable") := rfl

/-- The root-to-leaf walk of `delete` either completes (possibly carrying
Python `None` after a missing segment) or raises a `TypeError`; it never
raises a `KeyError`, because `Category.__getitem__` returns `None` instead
of raising. -/
theorem delete_walk_ok_or_typeError (ms : List String) :
    ∀ acc : Option PRNode,
      (∃ r, List.foldlM subscriptOpt acc ms = Except.ok r) ∨
      (∃ msg, List.foldlM subscriptOpt acc ms = Except.error (PyErr.typeError msg)) := by
  induction ms with
  | nil => exact fun acc => Or.inl ⟨acc, rfl⟩
  | cons m ms ih =>
    intro acc
    match acc with
    | some (.category n cs) =>
        have h : List.foldlM subscriptOpt (some (PRNode.category n cs)) (m :: ms) =
            List.foldlM subscriptOpt (getitem cs m) ms := by
          rw [List.foldlM_cons]; rfl
        rw [h]; exact ih _
    | some (.node a b c) =>
        exact Or.inr ⟨"Node object is not subscriptable", by rw [List.foldlM_cons]; rfl⟩
    | none =>
        exact Or.inr ⟨"NoneType object is not subscriptable", by rw [List.foldlM_cons]; rfl⟩

/-- C3 evidence: `delete` raises `TypeError`, never the claimed `KeyError`,
on every input — the walk returns `None` for a missing segment instead of
raising, and `del catStack[-1][key]` itself always raises `TypeError`
because no receiver supports item deletion.  The two closed conjuncts
evaluate the never-inserted-path scenario. -/
theorem C3_delete_type_error_not_keyerror :
    (∀ (t : PRNode) (path : List String) (key : String),
        ∃ msg, PlayRegistry.delete t path key = Except.error (PyErr.typeError msg)) ∧
    PlayRegistry.delete tSolo ["never", "inserted", "X"] "X" =
      Except.error (PyErr.typeError "NoneType object is not subscriptable") ∧
    PlayRegistry.delete emptyReg ["solo", "Kick"] "Kick" =
      Except.error (PyErr.typeError "NoneType object does not support item deletion") := by
  refine ⟨fun t path key => ?_, rfl, rfl⟩
  rcases delete_walk_ok_or_typeError path.dropLast (some t) with ⟨r, hr⟩ | ⟨msg, hm⟩
  · match r with
    | some (.category n cs) =>
        exact ⟨"Category object does not support item deletion", by
          simp only [PlayRegistry.delete]; rw [hr]; rfl⟩
    | some (.node a b c) =>
        exact ⟨"Node object does not support item deletion", by
          simp only [PlayRegistry.delete]; rw [hr]; rfl⟩
    | none =>
        exact ⟨"NoneType object does not support item deletion", by
          simp only [PlayRegistry.delete]; rw [hr]; rfl⟩
  · exact ⟨msg, by simp only [PlayRegistry.delete]; rw [hm]; rfl⟩

/-- C4 evidence: deleting a leaf that IS present still raises `TypeError`
(the `del` statement has no `__delitem__` to dispatch to) and removes
nothing: after `insert(["solo", "Kick"])`, `delete(["solo", "Kick"],
"Kick")` raises and the root keeps its `solo` child. -/
theorem C4_delete_removes_nothing :
    PlayRegistry.insert emptyReg ["solo", "Kick"] pcKick = Except.ok tSolo ∧
    PlayRegistry.delete tSolo ["solo", "Kick"] "Kick" =
      Except.error (PyErr.typeError "Category object does not support item deletion") ∧
    childNames tSolo = ["solo"] :=
  ⟨rfl, rfl, rfl⟩

/-- C5 evidence: `get_enabled_plays` never returns a list — it iterates the
registry, and the broken iterator raises `TypeError` at its first step. -/
theorem C5_enabled_plays_type_error (nm : String) (cs : List PRNode) :
    get_enabled_plays (PRNode.category nm cs) =
      Except.error (PyErr.typeError "list object is not callable") := rfl

/-- C7 evidence: immediately after a successful insert, `contains` does not
return `True` — it raises the iterator's `TypeError` (for the inserted
payload as for any other). -/
theorem C7_contains_type_error :
    PlayRegistry.insert emptyReg ["solo", "Kick"] pcKick = Except.ok tSolo ∧
    ∀ (nm : String) (cs : List PRNode) (pc : PlayClass),
      PlayRegistry.contains (PRNode.category nm cs) pc =
        Except.error (PyErr.typeError "list object is not callable") :=
  ⟨rfl, fun _ _ _ => rfl⟩

/-- C10: `Category.__getitem__` returns `None` exactly when no child bears
the name (it never raises), `has_child_with_name` holds exactly when some
child bears the name, and a successful lookup returns the first child of
that name in insertion order. -/
theorem C10_getitem_first_match (cs : List PRNode) (key : String) :
    (getitem cs key = none ↔ ∀ c ∈ cs, pyName c ≠ key) ∧
    (has_child_with_name cs key = true ↔ ∃ c ∈ cs, pyName c = key) ∧
    (∀ c, getitem cs key = some c →
        pyName c = key ∧ ∃ l r, cs = l ++ c :: r ∧ ∀ x ∈ l, pyName x ≠ key) := by
  induction cs with
  | nil =>
      exact ⟨by simp [getitem], by simp [has_child_with_name, getitem], by simp [getitem]⟩
  | cons c cs ih =>
    by_cases h : pyName c = key
    · have hg : getitem (c :: cs) key = some c := by simp [getitem, h]
      refine ⟨?_, ?_, ?_⟩
      · rw [hg]
        exact iff_of_false (by simp) (fun hall => hall c (List.mem_cons_self c cs) h)
      · have hh : has_child_with_name (c :: cs) key = true := by
          simp only [has_child_with_name, hg]
        rw [hh]
        exact iff_of_true rfl ⟨c, List.mem_cons_self c cs, h⟩
      · intro c2 hc2
        rw [hg] at hc2
        obtain rfl : c = c2 := by injection hc2
        exact ⟨h, [], cs, rfl, by simp⟩
    · have hg : getitem (c :: cs) key = getitem cs key := by simp [getitem, h]
      refine ⟨?_, ?_, ?_⟩
      · rw [hg, ih.1]
        constructor
        · intro hall x hx
          rcases List.mem_cons.mp hx with rfl | hx2
          · exact h
          · exact hall x hx2
        · intro hall x hx
          exact hall x (List.mem_cons_of_mem c hx)
      · have hh : has_child_with_name (c :: cs) key = has_child_with_name cs key := by
          simp only [has_child_with_name, hg]
        rw [hh, ih.2.1]
        constructor
        · rintro ⟨x, hx, hxk⟩
          exact ⟨x, List.mem_cons_of_mem c hx, hxk⟩
        · rintro ⟨x, hx, hxk⟩
          rcases List.mem_cons.mp hx with rfl | hx2
          · exact absurd hxk h
          · exact ⟨x, hx2, hxk⟩
      · intro c2 hc2
        rw [hg] at hc2
        obtain ⟨hk, l, r, hsplit, hfirst⟩ := ih.2.2 c2 hc2
        refine ⟨hk, c :: l, r, by rw [hsplit]; rfl, ?_⟩
        intro x hx
        rcases List.mem_cons.mp hx with rfl | hx2
        · exact h
        · exact hfirst x hx2

/-- Toggling the node a row path reaches flips exactly that node's
`enabled` flag: the same path still reaches the same node with the flag
negated. -/
theorem getNode_toggleAt :
    ∀ (p : List Nat) (t : PRNode) (m : String) (pc : PlayClass) (e : Bool),
      getNode t p = some (PRNode.node m pc e) →
      getNode (toggleAt t p) p = some (PRNode.node m pc (!e)) := by
  intro p
  induction p with
  | nil =>
    intro t m pc e h
    obtain rfl : t = PRNode.node m pc e := by
      simpa [getNode] using h
    rfl
  | cons i rest ih =>
    intro t m pc e h
    match t with
    | PRNode.node _ _ _ => simp [getNode] at h
    | PRNode.category n cs =>
      simp only [getNode] at h
      match hc : cs[i]? with
      | none => rw [hc] at h; cases h
      | some c =>
        rw [hc] at h
        have hlt : i < cs.length := (List.getElem?_eq_some.mp hc).1
        have hset : (cs.set i (toggleAt c rest))[i]? = some (toggleAt c rest) :=
          List.getElem?_set_self hlt
        simp only [toggleAt, hc, getNode, hset]
        exact ih c m pc e h

/-- C6: on a valid index, the check-state edit toggles a Leaf: it flips the
`enabled` flag of exactly that node, emits one `dataChanged(index, index)`
notification and returns `True`; doing it twice restores the original
`enabled` value; on a Category it raises the `AssertionError` guard before
changing anything. -/
theorem C6_setData_toggle (t : PRNode) (ix : ModelIndex) (hv : ix.valid = true) :
    (∀ (m : String) (pc : PlayClass) (e : Bool),
        getNode t ix.path = some (PRNode.node m pc e) →
        setData t ix Role.checkState = Except.ok (true, toggleAt t ix.path, [(ix, ix)]) ∧
        getNode (toggleAt t ix.path) ix.path = some (PRNode.node m pc (!e)) ∧
        setData (toggleAt t ix.path) ix Role.checkState =
          Except.ok (true, toggleAt (toggleAt t ix.path) ix.path, [(ix, ix)]) ∧
        getNode (toggleAt (toggleAt t ix.path) ix.path) ix.path = some (PRNode.node m pc e)) ∧
    (∀ (nm : String) (cs : List PRNode),
        getNode t ix.path = some (PRNode.category nm cs) →
        setData t ix Role.checkState =
          Except.error (PyErr.assertionError "Only Play Nodes should be checkable...")) := by
  constructor
  · intro m pc e h
    have h1 : getNode (toggleAt t ix.path) ix.path = some (PRNode.node m pc (!e)) :=
      getNode_toggleAt ix.path t m pc e h
    have h2 : getNode (toggleAt (toggleAt t ix.path) ix.path) ix.path =
        some (PRNode.node m pc (!!e)) :=
      getNode_toggleAt ix.path (toggleAt t ix.path) m pc (!e) h1
    rw [Bool.not_not] at h2
    refine ⟨?_, h1, ?_, h2⟩
    · simp [setData, hv, h]
    · simp [setData, hv, h1]
  · intro nm cs h
    simp [setData, hv, h]

/-- The string-vs-object membership test of `insert` never succeeds. -/
theorem strInChildren_false (m : String) (cs : List PRNode) : strInChildren m cs = false := by
  simp [strInChildren, pyEqStrObj]

/-- A found index lies between the start accumulator and the end of the
list. -/
theorem findIdx_some_bounds {α : Type} (p : α → Bool) :
    ∀ (l : List α) (s j : Nat), List.findIdx? p l s = some j → s ≤ j ∧ j < s + l.length := by
  intro l
  induction l with
  | nil =>
    intro s j h
    cases h
  | cons a l ih =>
    intro s j h
    rw [List.findIdx?_cons] at h
    by_cases hp : p a
    · simp only [hp, if_true, Option.some.injEq] at h
      subst h
      simp
    · simp only [hp, Bool.false_eq_true, if_false] at h
      have := ih (s + 1) j h
      constructor
      · omega
      · simp only [List.length_cons]
        omega

/-- A found index (from the default start 0) is inside the list. -/
theorem findIdx_some_lt_length {α : Type} (p : α → Bool) (l : List α) (i : Nat)
    (h : l.findIdx? p = some i) : i < l.length := by
  have := findIdx_some_bounds p l 0 i h
  omega

/-- Leaves of a concatenation of child lists. -/
theorem leavesOfChildren_append (l r : List PRNode) :
    leavesOfChildren (l ++ r) = leavesOfChildren l ++ leavesOfChildren r := by
  induction l with
  | nil => simp [leavesOfChildren]
  | cons c l ih => simp [leavesOfChildren, ih]

/-- A successful `insertAux` adds exactly one leaf, the freshly constructed
`Node(leafName, pc)` with `enabled = true`, somewhere in the depth-first
leaf sequence, and keeps every other leaf. -/
theorem insertAux_leaves (leafName : String) (pc : PlayClass) :
    ∀ (mods : List String) (t t2 : PRNode),
      insertAux leafName pc mods t = Except.ok t2 →
      ∃ l r, leavesList t2 = l ++ PRNode.node leafName pc true :: r ∧
        leavesList t = l ++ r := by
  intro mods
  induction mods with
  | nil =>
    intro t t2 h
    match t with
    | PRNode.node a b c => simp [insertAux] at h
    | PRNode.category n cs =>
      have h2 : PRNode.category n (cs ++ [PRNode.node leafName pc true]) = t2 := by
        injection h
      subst h2
      refine ⟨leavesOfChildren cs, [], ?_, by simp [leavesList]⟩
      simp [leavesList, leavesOfChildren_append, leavesOfChildren]
  | cons m rest ih =>
    intro t t2 h
    match t with
    | PRNode.node a b c => simp [insertAux] at h
    | PRNode.category n cs =>
      rw [show insertAux leafName pc (m :: rest) (PRNode.category n cs) =
          (match (cs ++ [PRNode.category m []]).findIdx? (fun c => pyName c == m) with
           | none => Except.error (.attributeError "NoneType object has no attribute children")
           | some i =>
             match insertAux leafName pc rest
                 ((cs ++ [PRNode.category m []]).getD i (.category "" [])) with
             | Except.error e => Except.error e
             | Except.ok c2 =>
                 Except.ok (.category n ((cs ++ [PRNode.category m []]).set i c2)))
          from by simp [insertAux, strInChildren_false]] at h
      split at h
      · cases h
      · rename_i i hidx
        split at h
        · cases h
        · rename_i c2 hrec
          have h2 : PRNode.category n ((cs ++ [PRNode.category m []]).set i c2) = t2 := by
            injection h
          subst h2
          set cs1 := cs ++ [PRNode.category m []] with hcs1
          have hlt : i < cs1.length := findIdx_some_lt_length _ cs1 i hidx
          have hgetd : cs1.getD i (PRNode.category "" []) = cs1[i] :=
            List.getD_eq_getElem cs1 _ hlt
          rw [hgetd] at hrec
          obtain ⟨l0, r0, hc2, hold⟩ := ih cs1[i] c2 hrec
          have hsplit : cs1 = cs1.take i ++ cs1[i] :: cs1.drop (i + 1) := by
            rw [List.getElem_cons_drop, List.take_append_drop]
          have hset : cs1.set i c2 = cs1.take i ++ c2 :: cs1.drop (i + 1) :=
            List.set_eq_take_cons_drop c2 hlt
          have hcs : leavesOfChildren cs = leavesOfChildren cs1 := by
            rw [hcs1, leavesOfChildren_append]
            simp [leavesOfChildren, leavesList]
          refine ⟨leavesOfChildren (cs1.take i) ++ l0,
                  r0 ++ leavesOfChildren (cs1.drop (i + 1)), ?_, ?_⟩
          · show leavesOfChildren (cs1.set i c2) = _
            rw [hset, leavesOfChildren_append]
            simp only [leavesOfChildren, hc2]
            simp [List.append_assoc]
          · show leavesOfChildren cs = _
            rw [hcs]
            conv_lhs => rw [hsplit]
            rw [leavesOfChildren_append]
            simp only [leavesOfChildren, hold]
            simp [List.append_assoc]

/-- C9: every successful `insert` creates its new `Node` with
`enabled = true`: the traversal of the result is the traversal of the old
tree with exactly one new leaf, `Node(path[-1], pc)`, inserted with its
enabled flag set. -/
theorem C9_inserted_leaf_enabled (t t2 : PRNode) (path : List String) (pc : PlayClass)
    (h : PlayRegistry.insert t path pc = Except.ok t2) :
    ∃ l r, leavesList t2 = l ++ PRNode.node (path.getLastD "") pc true :: r ∧
      leavesList t = l ++ r := by
  match path with
  | [] => cases h
  | p :: ps => exact insertAux_leaves (List.getLastD (p :: ps) "") pc _ t t2 h

/-- C9 witness: inserting `["solo", "Kick"]` into the fresh registry yields
exactly one leaf, which is enabled. -/
theorem C9_inserted_leaf_enabled_wit :
    ∃ l r, leavesList tSolo = l ++ PRNode.node "Kick" pcKick true :: r ∧
      leavesList emptyReg = l ++ r :=
  C9_inserted_leaf_enabled emptyReg tSolo ["solo", "Kick"] pcKick rfl

/-- C6 witness: toggling the single leaf of `tSolo` through the adapter
succeeds, disables it, and toggling again restores `enabled = true`. -/
theorem C6_setData_toggle_wit :
    setData tSolo ⟨true, [0, 0]⟩ Role.checkState =
      Except.ok (true, toggleAt tSolo [0, 0], [(⟨true, [0, 0]⟩, ⟨true, [0, 0]⟩)]) ∧
    getNode (toggleAt tSolo [0, 0]) [0, 0] = some (PRNode.node "Kick" pcKick false) ∧
    getNode (toggleAt (toggleAt tSolo [0, 0]) [0, 0]) [0, 0] =
      some (PRNode.node "Kick" pcKick true) := by
  have h := (C6_setData_toggle tSolo ⟨true, [0, 0]⟩ rfl).1 "Kick" pcKick true rfl
  exact ⟨h.1, h.2.1, h.2.2.2⟩

/-- A rendered child list is never the empty string: every child appends at
least its trailing newline. -/
theorem childrenStr_ne_nil (c : PRNode) (cs : List PRNode) (ind : Nat) :
    childrenStr (c :: cs) ind ≠ [] := by
  simp [childrenStr]

/-- C8: the renderer emits a newline-separated dump: the body of the tree
rendering at depth `ind` is exactly the newline-join of one chunk per
child, where a sub-category child contributes `"    " * ind + name + ":"`
followed (after the newline) by its own rendering at `ind + 1`, and a leaf
child contributes `"    " * ind` followed by its display name and
`" [ENABLED]"` or `" [DISABLED]"`; the registry stringification is the
fixed header followed by the root rendering at depth 0. -/
theorem C8_render_newline_separated :
    (∀ (cs : List PRNode) (ind : Nat),
        catStr cs ind = joinLines (cs.map (fun c => childStr c ind))) ∧
    (∀ (nm : String) (sub : List PRNode) (ind : Nat),
        childStr (PRNode.category nm sub) ind =
          pyIndent ind ++ nm.data ++ [':'] ++ ['\n'] ++ catStr sub (ind + 1)) ∧
    (∀ (mn : String) (pc : PlayClass) (e : Bool) (ind : Nat),
        childStr (PRNode.node mn pc e) ind = pyIndent ind ++ nodeStr pc e) ∧
    (∀ pc : PlayClass,
        nodeStr pc true = pc.name.data ++ " [ENABLED]".data ∧
        nodeStr pc false = pc.name.data ++ " [DISABLED]".data) ∧
    (∀ (nm : String) (cs : List PRNode),
        strDump (PRNode.category nm cs) =
          "PlayRegistry:\n-------------\n".data ++ catStr cs 0) := by
  refine ⟨?_, fun nm sub ind => rfl, fun mn pc e ind => rfl, ?_, fun nm cs => rfl⟩
  · intro cs ind
    induction cs with
    | nil => rfl
    | cons c cs ih =>
      rcases cs with _ | ⟨c2, cs2⟩
      · show (childStr c ind ++ ['\n'] ++ childrenStr [] ind).dropLast = _
        simp [childrenStr, joinLines, List.dropLast_concat]
      · have hne : childrenStr (c2 :: cs2) ind ≠ [] := childrenStr_ne_nil c2 cs2 ind
        show (childStr c ind ++ ['\n'] ++ childrenStr (c2 :: cs2) ind).dropLast = _
        rw [List.dropLast_append_of_ne_nil _ hne]
        have : (childrenStr (c2 :: cs2) ind).dropLast =
            joinLines ((c2 :: cs2).map (fun x => childStr x ind)) := ih
        rw [this]
        rfl
  · intro pc
    constructor
    · show pc.name.data ++ " ".data ++ "[ENABLED]".data = pc.name.data ++ " [ENABLED]".data
      rw [List.append_assoc]
      congr 1
    · show pc.name.data ++ " ".data ++ "[DISABLED]".data = pc.name.data ++ " [DISABLED]".data
      rw [List.append_assoc]
      congr 1
